import Mathlib

/-
Verification of the packing-list parsing and grouping core of `final.py`
(Container Packing List → Box Stickers).

The embedding below mirrors the three core functions of the source —
`find_header_row`, `read_rows`, `group_boxes` — together with the
pre-render item filter of `draw_components_table_with_merged_sn_and_code`.
Cell values are modelled by `Value` (Python `None`, strings, numeric
scalars); a worksheet is a row-major `Grid` of such values, addressed
1-based exactly as `ws.cell(row=·, column=·)` is in the source.
Python's `str.strip` is modelled by `pyStrip` (drop whitespace from both
ends), `str.lower` by `String.toLower`, and substring tests (`in`) by
infix tests on the character lists.
-/

/-- A spreadsheet cell value as the source sees it after `data_only`
loading: `vnone` is Python `None` (an empty cell), `vstr` a text cell,
`vnum` a numeric scalar.  Python truthiness/emptiness checks in the
source only distinguish `None`, `""` and everything else. -/
inductive Value where
  | vnone : Value
  | vstr : String → Value
  | vnum : Int → Value
deriving DecidableEq

/-- A worksheet: ordered rows of cell values (row-major, 1-based access
via `cellVal`). -/
abbrev Grid := List (List Value)

/-- `col_map`: logical field key → 1-based column index, in insertion
order (a Python dict of the source). -/
abbrev ColMap := List (String × Nat)

/-- Drop leading and trailing whitespace from a character list (the
content of Python's `str.strip()`). -/
def stripChars (l : List Char) : List Char :=
  ((l.dropWhile Char.isWhitespace).reverse.dropWhile Char.isWhitespace).reverse

/-- Python `s.strip()`. -/
def pyStrip (s : String) : String :=
  ⟨stripChars s.data⟩

/-- Source `_text(v)`: `"" if v is None else str(v).strip()`. -/
def _text (v : Value) : String :=
  match v with
  | Value.vnone => ""
  | Value.vstr s => pyStrip s
  | Value.vnum n => pyStrip (toString n)

/-- Source `_sn(v)`: `None` when the trimmed text is empty, else the text. -/
def _sn (v : Value) : Option String :=
  let s := _text v
  if s = "" then none else some s

/-- Source `_code_box(v)`: same collapse-to-absent rule as `_sn`. -/
def _code_box (v : Value) : Option String :=
  let s := _text v
  if s = "" then none else some s

/-- Python `v in (None, "")`: the emptiness test used by `read_rows`
(for the blank-row counter) and by the item filter on `qty`. -/
def isEmptyVal : Value → Bool
  | Value.vnone => true
  | Value.vstr s => s == ""
  | Value.vnum _ => false

/-- `ws.cell(row=r, column=c).value` with 1-based `r`, `c`; cells
outside the stored extent read as `None`. -/
def cellVal (g : Grid) (r c : Nat) : Value :=
  match g.get? (r - 1) with
  | none => Value.vnone
  | some row => (row.get? (c - 1)).getD Value.vnone

/-- `pat` is an initial segment of `l`. -/
def segStartsAt (pat l : List Char) : Bool :=
  match pat, l with
  | [], _ => true
  | _ :: _, [] => false
  | p :: ps, x :: xs => p == x && segStartsAt ps xs

/-- `pat` occurs contiguously somewhere in `l`. -/
def segOccurs (pat : List Char) : List Char → Bool
  | [] => pat.isEmpty
  | x :: xs => segStartsAt pat (x :: xs) || segOccurs pat xs

/-- Python `pat in s` on strings (substring containment). -/
def strContains (s pat : String) : Bool :=
  segOccurs pat.data s.data

/-- Inner cell scan of `find_header_row`: walk the (trimmed text,
lower-cased text) cells left to right; the first cell whose lower-cased
text contains the non-empty candidate `vlow` and whose trimmed text is
non-empty yields its 1-based column. -/
def scanCells (vlow : String) : List (String × String) → Nat → Option Nat
  | [], _ => none
  | (t, lo) :: rest, idx =>
    if vlow ≠ "" ∧ strContains lo vlow = true ∧ t ≠ "" then some (idx + 1)
    else scanCells vlow rest (idx + 1)

/-- Candidate-variant loop of `find_header_row`: try each label variant
in declared order, stopping at the first that matches some cell. -/
def findVariantCol (texts lower : List String) : List String → Option Nat
  | [] => none
  | v :: vs =>
    match scanCells v.toLower (texts.zip lower) 0 with
    | some c => some c
    | none => findVariantCol texts lower vs

/-- Per-row body of `find_header_row`: `match_count` and the `col_map`
accumulated (in catalog order) for one grid row. -/
def rowMatch (cands : List (String × List String)) (row : List Value) : Nat × ColMap :=
  let texts := row.map _text
  let lower := texts.map String.toLower
  cands.foldl
    (fun acc kv =>
      match findVariantCol texts lower kv.2 with
      | some c => (acc.1 + 1, acc.2 ++ [(kv.1, c)])
      | none => acc)
    (0, [])

/-- `match_count` of one row. -/
def rowCount (cands : List (String × List String)) (row : List Value) : Nat :=
  (rowMatch cands row).1

/-- Row loop of `find_header_row`: `r` is the 1-based row index of the
head of the remaining row list; a row becomes the new best only when its
`match_count` strictly exceeds the best so far and is at least 3. -/
def fhrAux (cands : List (String × List String)) :
    List (List Value) → Nat → Int → Option Nat → ColMap → Option Nat × ColMap
  | [], _, _, hdr, bm => (hdr, bm)
  | row :: rest, r, bc, hdr, bm =>
    let mc := (rowMatch cands row).1
    let cm := (rowMatch cands row).2
    if bc < (mc : Int) ∧ 3 ≤ mc then fhrAux cands rest (r + 1) (mc : Int) (some r) cm
    else fhrAux cands rest (r + 1) bc hdr bm

/-- Source `find_header_row(ws, header_candidates)`: best header row
index (1-based) and its column map, starting from
`best_match_count = -1`, no header, empty map. -/
def find_header_row (g : Grid) (cands : List (String × List String)) :
    Option Nat × ColMap :=
  fhrAux cands g 1 (-1) none []

/-- The `header_candidates` catalog passed to `find_header_row` by the
generation handler of the source. -/
def header_candidates : List (String × List String) :=
  [("sn", ["S.N", "sn", "s.n", "serial", "box sn"]),
   ("comp_ar", ["component in arabic", "arabic", "arabic name"]),
   ("comp_en", ["component in english", "component in e", "english name", "english"]),
   ("qty", ["Qut.", "Qu.", "Qty", "Quantity", "QTY"])]

/-- One extracted data row (`row_vals` dict of `read_rows`), fields in
the order the source creates them. -/
structure RowVals where
  sn : Value
  comp_ar : Value
  comp_en : Value
  qty : Value
  code_box : Value
  comp_code : Value
  box_type : Value
deriving DecidableEq

/-- Header-mapped lookup of `read_rows`: value of column `col_map[k]` at
row `r`, or `None` when the key is absent from the map. -/
def mapLookupCell (g : Grid) (cm : ColMap) (r : Nat) (k : String) : Value :=
  match cm.lookup k with
  | some c => cellVal g r c
  | none => Value.vnone

/-- The `row_vals` built by `read_rows` for row `r`: `sn`, `comp_ar`,
`comp_en`, `qty` through the column map; `code_box`, `comp_code`,
`box_type` forced to columns 2 (B), 5 (E), 7 (G). -/
def readRowVals (g : Grid) (cm : ColMap) (r : Nat) : RowVals :=
  { sn := mapLookupCell g cm r "sn"
    comp_ar := mapLookupCell g cm r "comp_ar"
    comp_en := mapLookupCell g cm r "comp_en"
    qty := mapLookupCell g cm r "qty"
    code_box := cellVal g r 2
    comp_code := cellVal g r 5
    box_type := cellVal g r 7 }

/-- The `all_empty` test of `read_rows`: all seven resolved values are
`None` or `""`, in the source's `core` list order. -/
def rowAllEmpty (rv : RowVals) : Bool :=
  [rv.sn, rv.code_box, rv.comp_ar, rv.comp_en, rv.comp_code, rv.qty, rv.box_type].all isEmptyVal

/-- The `while r <= ws.max_row` loop of `read_rows`, with `fuel` the
number of rows left to visit, `r` the current 1-based row and `empties`
the consecutive-blank counter.  A blank row bumps the counter and the
loop breaks — appending nothing — once it reaches 2; otherwise the row
(blank or not) is appended, a non-blank row resetting the counter to 0. -/
def readRowsAux (g : Grid) (cm : ColMap) : Nat → Nat → Nat → List RowVals
  | 0, _, _ => []
  | fuel + 1, r, empties =>
    let rv := readRowVals g cm r
    if rowAllEmpty rv then
      if 2 ≤ empties + 1 then []
      else rv :: readRowsAux g cm fuel (r + 1) (empties + 1)
    else rv :: readRowsAux g cm fuel (r + 1) 0

/-- Source `read_rows(ws, header_row, col_map)`: scan rows
`header_row + 1 … max_row`. -/
def read_rows (g : Grid) (header_row : Nat) (cm : ColMap) : List RowVals :=
  readRowsAux g cm (g.length - header_row) (header_row + 1) 0

/-- One component item of a box (the dict appended to
`current["items"]`): text fields already passed through `_text`,
quantity kept raw. -/
structure Item where
  comp_ar : String
  comp_en : String
  comp_code : String
  qty : Value
deriving DecidableEq

/-- One box group of `group_boxes`. -/
structure BoxGroup where
  sn : String
  code_box : String
  box_type : String
  items : List Item
deriving DecidableEq

/-- The item `group_boxes` appends for one row. -/
def mkItem (r : RowVals) : Item :=
  { comp_ar := _text r.comp_ar
    comp_en := _text r.comp_en
    comp_code := _text r.comp_code
    qty := r.qty }

/-- Loop body of `group_boxes` on state (closed groups, open group):
a row with both `sn` and `code_box` present closes the open group and
opens a new one; otherwise a sentinel "(UNKNOWN)" group is opened when
none is open; the row's item is appended to the open group, and a
non-empty `box_type` overwrites the open group's `box_type`. -/
def groupStep (acc : List BoxGroup × Option BoxGroup) (r : RowVals) :
    List BoxGroup × Option BoxGroup :=
  let bt := _text r.box_type
  let opened : List BoxGroup × BoxGroup :=
    match _sn r.sn, _code_box r.code_box, acc with
    | some s, some cb, (gs, cur) =>
        (gs ++ cur.toList, { sn := s, code_box := cb, box_type := bt, items := [] })
    | _, _, (gs, none) =>
        (gs, { sn := "(UNKNOWN)", code_box := "(UNKNOWN)", box_type := bt, items := [] })
    | _, _, (gs, some c) => (gs, c)
  let c2 := { opened.2 with items := opened.2.items ++ [mkItem r] }
  (opened.1, some (if bt = "" then c2 else { c2 with box_type := bt }))

/-- Source `group_boxes(data_rows)`: fold the rows, then close the open
group at end of input. -/
def group_boxes (rows : List RowVals) : List BoxGroup :=
  let st := rows.foldl groupStep ([], none)
  st.1 ++ st.2.toList

/-- Keep test of the pre-render item filter in
`draw_components_table_with_merged_sn_and_code`: some trimmed text field
non-empty, or `qty not in (None, "")`. -/
def keepItem (it : Item) : Bool :=
  !(pyStrip it.comp_ar == "") || !(pyStrip it.comp_en == "") ||
    !(pyStrip it.comp_code == "") || !(isEmptyVal it.qty)

/-- The rebuilt (re-trimmed) item the filter appends when kept. -/
def normItem (it : Item) : Item :=
  { comp_ar := pyStrip it.comp_ar
    comp_en := pyStrip it.comp_en
    comp_code := pyStrip it.comp_code
    qty := it.qty }

/-- The `filtered` list built before rendering: completely empty items
(no ar/en/code/qty) are removed, kept items are re-trimmed. -/
def filterItems (items : List Item) : List Item :=
  items.foldl (fun acc it => if keepItem it then acc ++ [normItem it] else acc) []

/-- Concatenation of the items of a group list, in group order then
item order. -/
def joinedItems (gs : List BoxGroup) : List Item :=
  (gs.map BoxGroup.items).flatten

/-- Loop invariant of `find_header_row` after the prefix `p` of the grid
has been scanned: either nothing has qualified yet (no scanned row
reached a match count of 3 and the state is still the initial one), or
the current best header is the topmost scanned row of maximal match
count, that count being at least 3 and strictly above every earlier
row's count. -/
def fhrInv (cands : List (String × List String)) (p : List (List Value)) (bc : Int)
    (hdr : Option Nat) (bm : ColMap) : Prop :=
  (hdr = none ∧ bc = -1 ∧ bm = [] ∧ ∀ row ∈ p, rowCount cands row < 3) ∨
  (∃ (j : Nat) (hrow : List Value), hdr = some (j + 1) ∧ p[j]? = some hrow ∧
    bc = (rowCount cands hrow : Int) ∧ 3 ≤ rowCount cands hrow ∧
    bm = (rowMatch cands hrow).2 ∧
    (∀ (i : Nat) (row : List Value),
      p[i]? = some row → i < j → rowCount cands row < rowCount cands hrow) ∧
    (∀ (i : Nat) (row : List Value),
      p[i]? = some row → rowCount cands row ≤ rowCount cands hrow))

-- ================== concrete example inputs ==================

/-- Column map used by the `read_rows` examples: `sn` in column 1,
`comp_ar` in 3, `comp_en` in 4, `qty` in 6. -/
def exCM : ColMap := [("sn", 1), ("comp_ar", 3), ("comp_en", 4), ("qty", 6)]

/-- A grid whose rows below the header row (row 1) are
data, data, blank, blank, data. -/
def exGridC1 : Grid :=
  [[Value.vstr "S.N", Value.vstr "Box code", Value.vstr "Component in Arabic",
    Value.vstr "Component in English", Value.vstr "Code", Value.vstr "Qty", Value.vstr "Type"],
   [Value.vstr "1", Value.vstr "A", Value.vstr "x", Value.vnone, Value.vnone,
    Value.vstr "2", Value.vnone],
   [Value.vstr "2", Value.vstr "B", Value.vstr "y", Value.vnone, Value.vnone,
    Value.vstr "1", Value.vnone],
   [],
   [],
   [Value.vstr "3", Value.vstr "C", Value.vstr "z", Value.vnone, Value.vnone,
    Value.vstr "1", Value.vnone]]

/-- Row records `(sn=1, box=A, comp=x)`, `(sn=None, box=None, comp=y)`,
`(sn=2, box=B, comp=z)` of the grouping-continuation example. -/
def exRowsC2 : List RowVals :=
  [{ sn := Value.vstr "1", comp_ar := Value.vstr "x", comp_en := Value.vnone,
     qty := Value.vnone, code_box := Value.vstr "A", comp_code := Value.vnone,
     box_type := Value.vnone },
   { sn := Value.vnone, comp_ar := Value.vstr "y", comp_en := Value.vnone,
     qty := Value.vnone, code_box := Value.vnone, comp_code := Value.vnone,
     box_type := Value.vnone },
   { sn := Value.vstr "2", comp_ar := Value.vstr "z", comp_en := Value.vnone,
     qty := Value.vnone, code_box := Value.vstr "B", comp_code := Value.vnone,
     box_type := Value.vnone }]

/-- The single row `(sn=None, box=None, comp=x)` of the sentinel-group
example. -/
def exRowC6 : RowVals :=
  { sn := Value.vnone, comp_ar := Value.vstr "x", comp_en := Value.vnone,
    qty := Value.vnone, code_box := Value.vnone, comp_code := Value.vnone,
    box_type := Value.vnone }

/-- Three rows of a single group whose `box_type` values are `""`,
`"Carton"`, `""` in order. -/
def exRowsC7 : List RowVals :=
  [{ sn := Value.vstr "1", comp_ar := Value.vstr "p", comp_en := Value.vnone,
     qty := Value.vnone, code_box := Value.vstr "A", comp_code := Value.vnone,
     box_type := Value.vstr "" },
   { sn := Value.vnone, comp_ar := Value.vstr "q", comp_en := Value.vnone,
     qty := Value.vnone, code_box := Value.vnone, comp_code := Value.vnone,
     box_type := Value.vstr "Carton" },
   { sn := Value.vnone, comp_ar := Value.vstr "s", comp_en := Value.vnone,
     qty := Value.vnone, code_box := Value.vnone, comp_code := Value.vnone,
     box_type := Value.vstr "" }]

-- ======================= theorems =======================

/-- C10: `group_boxes` of no rows yields no groups — the "(UNKNOWN)"
sentinel group is only ever created by an arriving row. -/
theorem group_boxes_nil : group_boxes [] = [] := rfl

/-- C1 (evaluation at the failing input): on a grid whose rows below the
header are data, data, blank, blank, data, `read_rows` returns THREE
records — the two data rows AND the first blank row, which the loop
appends after incrementing the counter to 1 — while the claim says the
two data rows alone.  The second blank row and the trailing data row are
indeed never recorded. -/
theorem read_rows_records_first_blank :
    read_rows exGridC1 1 exCM =
      [{ sn := Value.vstr "1", comp_ar := Value.vstr "x", comp_en := Value.vnone,
         qty := Value.vstr "2", code_box := Value.vstr "A", comp_code := Value.vnone,
         box_type := Value.vnone },
       { sn := Value.vstr "2", comp_ar := Value.vstr "y", comp_en := Value.vnone,
         qty := Value.vstr "1", code_box := Value.vstr "B", comp_code := Value.vnone,
         box_type := Value.vnone },
       { sn := Value.vnone, comp_ar := Value.vnone, comp_en := Value.vnone,
         qty := Value.vnone, code_box := Value.vnone, comp_code := Value.vnone,
         box_type := Value.vnone }] := by
  decide

/-- C5: in every extracted row, `code_box`, `comp_code` and `box_type`
come from fixed 1-based columns 2, 5 and 7 — for any column map, so in
particular independently of header detection — while `sn`, `comp_ar`,
`comp_en` and `qty` go through the column map, an absent mapping
yielding `None`. -/
theorem readRowVals_fixed_columns (g : Grid) (cm cm' : ColMap) (r : Nat) :
    (readRowVals g cm r).code_box = cellVal g r 2 ∧
    (readRowVals g cm r).comp_code = cellVal g r 5 ∧
    (readRowVals g cm r).box_type = cellVal g r 7 ∧
    (readRowVals g cm r).code_box = (readRowVals g cm' r).code_box ∧
    (readRowVals g cm r).comp_code = (readRowVals g cm' r).comp_code ∧
    (readRowVals g cm r).box_type = (readRowVals g cm' r).box_type ∧
    (readRowVals g cm r).sn = mapLookupCell g cm r "sn" ∧
    (readRowVals g cm r).comp_ar = mapLookupCell g cm r "comp_ar" ∧
    (readRowVals g cm r).comp_en = mapLookupCell g cm r "comp_en" ∧
    (readRowVals g cm r).qty = mapLookupCell g cm r "qty" ∧
    (∀ k, List.lookup k cm = none → mapLookupCell g cm r k = Value.vnone) :=
  ⟨rfl, rfl, rfl, rfl, rfl, rfl, rfl, rfl, rfl, rfl,
   fun _ h => by simp [mapLookupCell, h]⟩

/-- C5 witness: the fixed-position and absent-mapping behavior at a
concrete grid, column map and row. -/
theorem readRowVals_fixed_columns_witness :
    mapLookupCell exGridC1 exCM 2 "zz" = Value.vnone :=
  (readRowVals_fixed_columns exGridC1 exCM [] 2).2.2.2.2.2.2.2.2.2.2 "zz" (by decide)

/-- C8: a row counts as blank for the blank-run counter exactly when all
seven resolved fields are `None`-or-empty-string; a row whose
fixed-position `box_type` is non-empty is not blank, and the extraction
loop appends it and resets the counter to 0 instead of incrementing. -/
theorem row_blank_requires_all_seven (g : Grid) (cm : ColMap) (fuel r e : Nat)
    (h : (readRowVals g cm r).box_type ≠ Value.vnone ∧
         (readRowVals g cm r).box_type ≠ Value.vstr "") :
    (∀ rv : RowVals, rowAllEmpty rv =
      (isEmptyVal rv.sn && isEmptyVal rv.code_box && isEmptyVal rv.comp_ar &&
        isEmptyVal rv.comp_en && isEmptyVal rv.comp_code && isEmptyVal rv.qty &&
        isEmptyVal rv.box_type)) ∧
    rowAllEmpty (readRowVals g cm r) = false ∧
    readRowsAux g cm (fuel + 1) r e =
      readRowVals g cm r :: readRowsAux g cm fuel (r + 1) 0 := by
  have hbt : isEmptyVal (readRowVals g cm r).box_type = false := by
    cases hv : (readRowVals g cm r).box_type with
    | vnone => exact absurd hv h.1
    | vstr s =>
        have hs : s ≠ "" := fun e => h.2 (by rw [hv, e])
        simp [isEmptyVal, hs]
    | vnum n => simp [isEmptyVal]
  have hall : rowAllEmpty (readRowVals g cm r) = false := by
    simp [rowAllEmpty, hbt]
  refine ⟨fun rv => ?_, hall, ?_⟩
  · simp [rowAllEmpty, List.all, Bool.and_assoc]
  · simp [readRowsAux, hall]

/-- C8 witness: a row whose only non-empty value is the fixed-position
`box_type` in column 7 is not blank and does not bump the counter. -/
theorem row_blank_requires_all_seven_witness :
    rowAllEmpty (readRowVals [[Value.vnone, Value.vnone, Value.vnone, Value.vnone,
      Value.vnone, Value.vnone, Value.vstr "Carton"]] [] 1) = false ∧
    readRowsAux [[Value.vnone, Value.vnone, Value.vnone, Value.vnone,
      Value.vnone, Value.vnone, Value.vstr "Carton"]] [] 1 1 0 =
      readRowVals [[Value.vnone, Value.vnone, Value.vnone, Value.vnone,
        Value.vnone, Value.vnone, Value.vstr "Carton"]] [] 1 ::
      readRowsAux [[Value.vnone, Value.vnone, Value.vnone, Value.vnone,
        Value.vnone, Value.vnone, Value.vstr "Carton"]] [] 0 2 0 :=
  ⟨(row_blank_requires_all_seven _ [] 0 1 0 (by decide)).2.1,
   (row_blank_requires_all_seven _ [] 0 1 0 (by decide)).2.2⟩

/-- `_sn` returns `some` only for a non-empty trimmed text. -/
theorem _text_ne_of_sn_some {v : Value} {s : String} (e : _sn v = some s) :
    _text v ≠ "" := by
  intro h; simp [_sn, h] at e

/-- `_code_box` returns `some` only for a non-empty trimmed text. -/
theorem _text_ne_of_code_box_some {v : Value} {s : String} (e : _code_box v = some s) :
    _text v ≠ "" := by
  intro h; simp [_code_box, h] at e

/-- A row with both identifiers present closes the open group and opens
a fresh one seeded with the row's fields. -/
theorem groupStep_open (gs : List BoxGroup) (cur : Option BoxGroup) (r : RowVals)
    (h1 : _text r.sn ≠ "") (h2 : _text r.code_box ≠ "") :
    groupStep (gs, cur) r =
      (gs ++ cur.toList,
       some { sn := _text r.sn, code_box := _text r.code_box,
              box_type := _text r.box_type, items := [mkItem r] }) := by
  have e1 : _sn r.sn = some (_text r.sn) := by simp [_sn, h1]
  have e2 : _code_box r.code_box = some (_text r.code_box) := by simp [_code_box, h2]
  by_cases hbt : _text r.box_type = "" <;>
    simp [groupStep, e1, e2, hbt]

/-- A row lacking an identifier extends the open group: no group is
closed, the item is appended, and a non-empty `box_type` overwrites. -/
theorem groupStep_cont_some (gs : List BoxGroup) (c : BoxGroup) (r : RowVals)
    (h : _sn r.sn = none ∨ _code_box r.code_box = none) :
    groupStep (gs, some c) r =
      (gs, some { sn := c.sn, code_box := c.code_box,
                  box_type := if _text r.box_type = "" then c.box_type else _text r.box_type,
                  items := c.items ++ [mkItem r] }) := by
  rcases h with h | h
  · cases e2 : _code_box r.code_box <;>
      by_cases hbt : _text r.box_type = "" <;>
      simp [groupStep, h, e2, hbt]
  · cases e1 : _sn r.sn <;>
      by_cases hbt : _text r.box_type = "" <;>
      simp [groupStep, h, e1, hbt]

/-- A row lacking an identifier with no group open opens the
"(UNKNOWN)" sentinel carrying the row's `box_type` and item. -/
theorem groupStep_cont_none (gs : List BoxGroup) (r : RowVals)
    (h : _sn r.sn = none ∨ _code_box r.code_box = none) :
    groupStep (gs, none) r =
      (gs, some { sn := "(UNKNOWN)", code_box := "(UNKNOWN)",
                  box_type := _text r.box_type, items := [mkItem r] }) := by
  rcases h with h | h
  · cases e2 : _code_box r.code_box <;>
      by_cases hbt : _text r.box_type = "" <;>
      simp [groupStep, h, e2, hbt]
  · cases e1 : _sn r.sn <;>
      by_cases hbt : _text r.box_type = "" <;>
      simp [groupStep, h, e1, hbt]

/-- Every step hands exactly the row's item to the state, at the end. -/
theorem groupStep_items (gs : List BoxGroup) (cur : Option BoxGroup) (r : RowVals) :
    joinedItems ((groupStep (gs, cur) r).1 ++ ((groupStep (gs, cur) r).2).toList) =
      joinedItems (gs ++ cur.toList) ++ [mkItem r] := by
  cases e1 : _sn r.sn with
  | none =>
      cases cur with
      | none =>
          rw [groupStep_cont_none gs r (Or.inl e1)]
          simp [joinedItems]
      | some c =>
          rw [groupStep_cont_some gs c r (Or.inl e1)]
          simp [joinedItems]
  | some s =>
      cases e2 : _code_box r.code_box with
      | none =>
          cases cur with
          | none =>
              rw [groupStep_cont_none gs r (Or.inr e2)]
              simp [joinedItems]
          | some c =>
              rw [groupStep_cont_some gs c r (Or.inr e2)]
              simp [joinedItems]
      | some cb =>
          rw [groupStep_open gs cur r (_text_ne_of_sn_some e1) (_text_ne_of_code_box_some e2)]
          simp [joinedItems]

/-- Folding `groupStep` over rows appends exactly the rows' items, in
order, to the state's joined items. -/
theorem foldl_groupStep_join (rows : List RowVals) :
    ∀ (gs : List BoxGroup) (cur : Option BoxGroup),
      joinedItems ((rows.foldl groupStep (gs, cur)).1 ++
          ((rows.foldl groupStep (gs, cur)).2).toList) =
        joinedItems (gs ++ cur.toList) ++ rows.map mkItem := by
  induction rows with
  | nil => intro gs cur; simp
  | cons r rest ih =>
      intro gs cur
      rw [List.foldl_cons]
      have h2 := ih (groupStep (gs, cur) r).1 (groupStep (gs, cur) r).2
      rw [show ((groupStep (gs, cur) r).1, (groupStep (gs, cur) r).2) = groupStep (gs, cur) r
        from rfl] at h2
      rw [h2, groupStep_items gs cur r]
      simp

/-- C4: grouping partitions the rows in order — the concatenation of all
groups' items, in group order then item order, is exactly the item of
each extracted row in original row order (so every row record lands in
exactly one group, and group and item order follow arrival order). -/
theorem group_boxes_partitions (rows : List RowVals) :
    ((group_boxes rows).map BoxGroup.items).flatten = rows.map mkItem := by
  have h := foldl_groupStep_join rows [] none
  simpa [group_boxes, joinedItems] using h

/-- C2: in `group_boxes` a row opens a new box group exactly when both
its `sn` and its `box_code` are non-empty after trimming (the open group
is then closed); any other row — both identifiers absent, or exactly one
present — is a continuation: nothing is closed and its item is appended
to the open group.  On rows `(sn=1,box=A,comp=x)`, `(None,None,y)`,
`(sn=2,box=B,comp=z)` this yields exactly the two groups
`{1, A, [x, y]}` and `{2, B, [z]}`. -/
theorem group_boxes_new_iff_both_present (gs : List BoxGroup) (c : BoxGroup) (r : RowVals) :
    ((_text r.sn ≠ "" ∧ _text r.code_box ≠ "") →
      groupStep (gs, some c) r =
        (gs ++ [c],
         some { sn := _text r.sn, code_box := _text r.code_box,
                box_type := _text r.box_type, items := [mkItem r] })) ∧
    ((_text r.sn = "" ∨ _text r.code_box = "") →
      groupStep (gs, some c) r =
        (gs, some { sn := c.sn, code_box := c.code_box,
                    box_type := if _text r.box_type = "" then c.box_type else _text r.box_type,
                    items := c.items ++ [mkItem r] })) ∧
    group_boxes exRowsC2 =
      [{ sn := "1", code_box := "A", box_type := "",
         items := [{ comp_ar := "x", comp_en := "", comp_code := "", qty := Value.vnone },
                   { comp_ar := "y", comp_en := "", comp_code := "", qty := Value.vnone }] },
       { sn := "2", code_box := "B", box_type := "",
         items := [{ comp_ar := "z", comp_en := "", comp_code := "", qty := Value.vnone }] }] := by
  refine ⟨fun h => ?_, fun h => ?_, by decide⟩
  · rw [groupStep_open gs (some c) r h.1 h.2]
    simp
  · have h' : _sn r.sn = none ∨ _code_box r.code_box = none := by
      rcases h with h | h
      · exact Or.inl (by simp [_sn, h])
      · exact Or.inr (by simp [_code_box, h])
    exact groupStep_cont_some gs c r h'

/-- C2 witness: the opening transition at a concrete state and row. -/
theorem group_boxes_new_iff_both_present_witness :
    groupStep ([], some { sn := "0", code_box := "Z", box_type := "", items := [] })
        { sn := Value.vstr "1", comp_ar := Value.vstr "x", comp_en := Value.vnone,
          qty := Value.vnone, code_box := Value.vstr "A", comp_code := Value.vnone,
          box_type := Value.vnone } =
      ([{ sn := "0", code_box := "Z", box_type := "", items := [] }],
       some { sn := "1", code_box := "A", box_type := "",
              items := [{ comp_ar := "x", comp_en := "", comp_code := "", qty := Value.vnone }] }) := by
  have h := (group_boxes_new_iff_both_present []
    { sn := "0", code_box := "Z", box_type := "", items := [] }
    { sn := Value.vstr "1", comp_ar := Value.vstr "x", comp_en := Value.vnone,
      qty := Value.vnone, code_box := Value.vstr "A", comp_code := Value.vnone,
      box_type := Value.vnone }).1 (by decide)
  exact h.trans (by decide)

/-- Folding continuation rows onto an open group only appends their
items (and refreshes `box_type`). -/
theorem foldl_groupStep_cont (rows : List RowVals) :
    ∀ (gs : List BoxGroup) (c : BoxGroup),
      (∀ r ∈ rows, _sn r.sn = none ∨ _code_box r.code_box = none) →
      ∃ bt, rows.foldl groupStep (gs, some c) =
        (gs, some { sn := c.sn, code_box := c.code_box, box_type := bt,
                    items := c.items ++ rows.map mkItem }) := by
  induction rows with
  | nil => intro gs c _; exact ⟨c.box_type, by simp⟩
  | cons r rest ih =>
      intro gs c h
      rw [List.foldl_cons, groupStep_cont_some gs c r (h r (by simp))]
      obtain ⟨bt, hbt⟩ := ih gs
        { sn := c.sn, code_box := c.code_box,
          box_type := if _text r.box_type = "" then c.box_type else _text r.box_type,
          items := c.items ++ [mkItem r] }
        (fun x hx => h x (by simp [hx]))
      refine ⟨bt, ?_⟩
      rw [hbt]
      simp

/-- C6: when no row ever supplies both identifiers, every item lands in
a single sentinel group whose identifier pair is
"(UNKNOWN)"/"(UNKNOWN)". -/
theorem group_boxes_unknown_sentinel (rows : List RowVals) (hne : rows ≠ [])
    (h : ∀ r ∈ rows, _text r.sn = "" ∨ _text r.code_box = "") :
    ∃ bt, group_boxes rows =
      [{ sn := "(UNKNOWN)", code_box := "(UNKNOWN)", box_type := bt,
         items := rows.map mkItem }] := by
  cases rows with
  | nil => exact absurd rfl hne
  | cons r rest =>
      have conv : ∀ x ∈ r :: rest, _sn x.sn = none ∨ _code_box x.code_box = none := by
        intro x hx
        rcases h x hx with h' | h'
        · exact Or.inl (by simp [_sn, h'])
        · exact Or.inr (by simp [_code_box, h'])
      unfold group_boxes
      rw [List.foldl_cons, groupStep_cont_none [] r (conv r (by simp))]
      obtain ⟨bt, hbt⟩ := foldl_groupStep_cont rest []
        { sn := "(UNKNOWN)", code_box := "(UNKNOWN)", box_type := _text r.box_type,
          items := [mkItem r] }
        (fun x hx => conv x (by simp [hx]))
      refine ⟨bt, ?_⟩
      rw [hbt]
      simp

/-- C6 witness: the single row `(sn=None, box=None, comp=x)` produces
exactly one "(UNKNOWN)"/"(UNKNOWN)" group holding item `x`. -/
theorem group_boxes_unknown_sentinel_witness :
    ∃ bt, group_boxes [exRowC6] =
      [{ sn := "(UNKNOWN)", code_box := "(UNKNOWN)", box_type := bt,
         items := [exRowC6].map mkItem }] :=
  group_boxes_unknown_sentinel [exRowC6] (by simp) (by decide)

/-- C7: within a group, `box_type` is last-non-empty-wins — a
continuation row with a non-empty trimmed `box_type` overwrites the open
group's value, an empty one never does; a group whose rows carry
`box_type` values `""`, `"Carton"`, `""` closes with `"Carton"`. -/
theorem group_box_type_last_nonempty (gs : List BoxGroup) (c : BoxGroup) (r : RowVals)
    (h : _text r.sn = "" ∨ _text r.code_box = "") :
    ((_text r.box_type ≠ "" →
        (groupStep (gs, some c) r).2 =
          some { sn := c.sn, code_box := c.code_box, box_type := _text r.box_type,
                 items := c.items ++ [mkItem r] }) ∧
     (_text r.box_type = "" →
        (groupStep (gs, some c) r).2 =
          some { sn := c.sn, code_box := c.code_box, box_type := c.box_type,
                 items := c.items ++ [mkItem r] })) ∧
    group_boxes exRowsC7 =
      [{ sn := "1", code_box := "A", box_type := "Carton",
         items := [{ comp_ar := "p", comp_en := "", comp_code := "", qty := Value.vnone },
                   { comp_ar := "q", comp_en := "", comp_code := "", qty := Value.vnone },
                   { comp_ar := "s", comp_en := "", comp_code := "", qty := Value.vnone }] }] := by
  have h' : _sn r.sn = none ∨ _code_box r.code_box = none := by
    rcases h with h | h
    · exact Or.inl (by simp [_sn, h])
    · exact Or.inr (by simp [_code_box, h])
  rw [groupStep_cont_some gs c r h']
  refine ⟨⟨fun hbt => ?_, fun hbt => ?_⟩, by decide⟩
  · simp [hbt]
  · simp [hbt]

/-- C7 witness: a continuation row with non-empty `box_type` overwrites
the open group's `box_type` at a concrete state. -/
theorem group_box_type_last_nonempty_witness :
    (groupStep ([], some { sn := "1", code_box := "A", box_type := "", items := [] })
        { sn := Value.vnone, comp_ar := Value.vstr "q", comp_en := Value.vnone,
          qty := Value.vnone, code_box := Value.vnone, comp_code := Value.vnone,
          box_type := Value.vstr "Carton" }).2 =
      some { sn := "1", code_box := "A", box_type := "Carton",
             items := [{ comp_ar := "q", comp_en := "", comp_code := "", qty := Value.vnone }] } := by
  have h := ((group_box_type_last_nonempty []
    { sn := "1", code_box := "A", box_type := "", items := [] }
    { sn := Value.vnone, comp_ar := Value.vstr "q", comp_en := Value.vnone,
      qty := Value.vnone, code_box := Value.vnone, comp_code := Value.vnone,
      box_type := Value.vstr "Carton" } (by decide)).1).1 (by decide)
  exact h.trans (by decide)

/-- The head of `dropWhile p` never satisfies `p`. -/
theorem head_dropWhile_false {α} (p : α → Bool) (l : List α) :
    ∀ {x}, (l.dropWhile p).head? = some x → p x = false := by
  induction l with
  | nil => intro x h; simp at h
  | cons a as ih =>
      intro x h
      rw [List.dropWhile_cons] at h
      by_cases hp : p a
      · rw [if_pos hp] at h; exact ih h
      · rw [if_neg hp] at h
        simp only [List.head?_cons, Option.some.injEq] at h
        rw [← h]
        exact Bool.of_not_eq_true hp

/-- A list whose head fails `p` is untouched by `dropWhile p`. -/
theorem dropWhile_eq_self_of_head {α} (p : α → Bool) (l : List α)
    (h : ∀ x, l.head? = some x → p x = false) : l.dropWhile p = l := by
  cases l with
  | nil => rfl
  | cons a as =>
      have := h a rfl
      simp [List.dropWhile_cons, this]

/-- A non-empty `dropWhile` keeps the last element. -/
theorem getLast_dropWhile {α} (p : α → Bool) (l : List α)
    (h : l.dropWhile p ≠ []) : (l.dropWhile p).getLast? = l.getLast? := by
  obtain ⟨pre, hpre⟩ := List.dropWhile_suffix p (l := l)
  conv_rhs => rw [← hpre]
  rw [List.getLast?_append]
  cases hd : (l.dropWhile p).getLast? with
  | none => exact absurd (List.getLast?_eq_none_iff.mp hd) h
  | some a => simp

/-- The first character of a stripped list is not whitespace. -/
theorem stripChars_head (l : List Char) :
    ∀ {x}, (stripChars l).head? = some x → x.isWhitespace = false := by
  intro x h
  unfold stripChars at h
  rw [List.head?_reverse] at h
  have hne : (l.dropWhile Char.isWhitespace).reverse.dropWhile Char.isWhitespace ≠ [] := by
    intro e; rw [e] at h; simp at h
  rw [getLast_dropWhile _ _ hne, List.getLast?_reverse] at h
  exact head_dropWhile_false _ _ h

/-- The last character of a stripped list is not whitespace. -/
theorem stripChars_getLast (l : List Char) :
    ∀ {x}, (stripChars l).getLast? = some x → x.isWhitespace = false := by
  intro x h
  unfold stripChars at h
  rw [List.getLast?_reverse] at h
  exact head_dropWhile_false _ _ h

/-- Stripping is idempotent on character lists. -/
theorem stripChars_idem (l : List Char) : stripChars (stripChars l) = stripChars l := by
  have h1 : (stripChars l).dropWhile Char.isWhitespace = stripChars l :=
    dropWhile_eq_self_of_head _ _ (fun _ hx => stripChars_head l hx)
  have h2 : (stripChars l).reverse.dropWhile Char.isWhitespace = (stripChars l).reverse := by
    apply dropWhile_eq_self_of_head
    intro x hx
    rw [List.head?_reverse] at hx
    exact stripChars_getLast l hx
  have e : stripChars (stripChars l) =
      (((stripChars l).dropWhile Char.isWhitespace).reverse.dropWhile
        Char.isWhitespace).reverse := rfl
  rw [e, h1, h2, List.reverse_reverse]

/-- Python strip is idempotent. -/
theorem pyStrip_idem (s : String) : pyStrip (pyStrip s) = pyStrip s :=
  congrArg String.mk (stripChars_idem s.data)

/-- Re-trimming a rebuilt item does not change whether it is kept. -/
theorem keepItem_norm (it : Item) : keepItem (normItem it) = keepItem it := by
  simp [keepItem, normItem, pyStrip_idem]

/-- Rebuilding is idempotent. -/
theorem normItem_idem (it : Item) : normItem (normItem it) = normItem it := by
  simp [normItem, pyStrip_idem]

/-- The filter loop is filtering followed by rebuilding. -/
theorem filterItems_foldl (l : List Item) :
    ∀ acc, l.foldl (fun acc it => if keepItem it then acc ++ [normItem it] else acc) acc =
      acc ++ (l.filter keepItem).map normItem := by
  induction l with
  | nil => intro acc; simp
  | cons x xs ih =>
      intro acc
      rw [List.foldl_cons]
      by_cases hx : keepItem x <;>
        simp [hx, ih, List.filter_cons, List.append_assoc]

/-- C9: the pre-render item filter drops an item exactly when all four
of `comp_ar`, `comp_en`, `comp_code`, `qty` are empty/null (any single
non-empty field keeps it), preserves the order of the kept items, and is
idempotent: filtering an already-filtered list is a no-op. -/
theorem filterItems_characterization (l : List Item) :
    filterItems l = (l.filter keepItem).map normItem ∧
    (∀ it : Item, keepItem it =
      !(pyStrip it.comp_ar == "" && pyStrip it.comp_en == "" &&
        pyStrip it.comp_code == "" && isEmptyVal it.qty)) ∧
    filterItems (filterItems l) = filterItems l := by
  have hchar : ∀ m : List Item, filterItems m = (m.filter keepItem).map normItem :=
    fun m => by simpa using filterItems_foldl m []
  refine ⟨hchar l, fun it => ?_, ?_⟩
  · cases h1 : (pyStrip it.comp_ar == "") <;>
      cases h2 : (pyStrip it.comp_en == "") <;>
      cases h3 : (pyStrip it.comp_code == "") <;>
      cases h4 : isEmptyVal it.qty <;>
      simp [keepItem, h1, h2, h3, h4]
  · rw [hchar l, hchar ((l.filter keepItem).map normItem), List.filter_map]
    have hf : (l.filter keepItem).filter (keepItem ∘ normItem) = l.filter keepItem := by
      rw [List.filter_eq_self]
      intro a ha
      have hk := (List.mem_filter.mp ha).2
      simpa [Function.comp, keepItem_norm] using hk
    rw [hf, List.map_map]
    apply List.map_congr_left
    intro a _
    simp [Function.comp, normItem_idem]

/-- A qualifying row (count strictly above the best, at least 3) becomes
the new best and maintains the invariant. -/
theorem fhrInv_update (cands : List (String × List String)) (p : List (List Value))
    (row : List Value) (bc : Int) (hdr : Option Nat) (bm : ColMap)
    (h : fhrInv cands p bc hdr bm)
    (hc : bc < (rowCount cands row : Int) ∧ 3 ≤ rowCount cands row) :
    fhrInv cands (p ++ [row]) (rowCount cands row : Int) (some (p.length + 1))
      (rowMatch cands row).2 := by
  refine Or.inr ⟨p.length, row, rfl, List.getElem?_concat_length p row, rfl, hc.2, rfl, ?_, ?_⟩
  · intro i row' hi hij
    rw [List.getElem?_append_left hij] at hi
    rcases h with ⟨_, hbc, _, hall⟩ | ⟨j, hrow, _, _, hbc, _, _, _, hmax⟩
    · exact lt_of_lt_of_le (hall row' (List.getElem?_mem hi)) hc.2
    · have h1 : rowCount cands row' ≤ rowCount cands hrow := hmax i row' hi
      have h2 : (rowCount cands hrow : Int) < rowCount cands row := hbc ▸ hc.1
      exact lt_of_le_of_lt h1 (by exact_mod_cast h2)
  · intro i row' hi
    by_cases hip : i < p.length
    · rw [List.getElem?_append_left hip] at hi
      rcases h with ⟨_, hbc, _, hall⟩ | ⟨j, hrow, _, _, hbc, _, _, _, hmax⟩
      · exact le_of_lt (lt_of_lt_of_le (hall row' (List.getElem?_mem hi)) hc.2)
      · have h1 : rowCount cands row' ≤ rowCount cands hrow := hmax i row' hi
        have h2 : (rowCount cands hrow : Int) < rowCount cands row := hbc ▸ hc.1
        exact le_of_lt (lt_of_le_of_lt h1 (by exact_mod_cast h2))
    · have hlt : i < p.length + 1 := by
        have := (List.getElem?_eq_some_iff.mp hi).1
        simpa using this
      have hieq : i = p.length := by omega
      subst hieq
      rw [List.getElem?_concat_length] at hi
      injection hi with he
      subst he
      exact le_refl _

/-- A non-qualifying row leaves the best unchanged and maintains the
invariant. -/
theorem fhrInv_keep (cands : List (String × List String)) (p : List (List Value))
    (row : List Value) (bc : Int) (hdr : Option Nat) (bm : ColMap)
    (h : fhrInv cands p bc hdr bm)
    (hc : ¬(bc < (rowCount cands row : Int) ∧ 3 ≤ rowCount cands row)) :
    fhrInv cands (p ++ [row]) bc hdr bm := by
  rcases h with ⟨hh, hbc, hbm, hall⟩ | ⟨j, hrow, hhdr, hj, hbc, h3, hbm, hstrict, hmax⟩
  · refine Or.inl ⟨hh, hbc, hbm, ?_⟩
    intro x hx
    rcases List.mem_append.mp hx with hx | hx
    · exact hall x hx
    · have hxr : x = row := by simpa using hx
      subst hxr
      have hlt : (-1 : Int) < (rowCount cands x : Int) :=
        lt_of_lt_of_le (by norm_num) (Int.natCast_nonneg _)
      have h3' : ¬ 3 ≤ rowCount cands x := fun h3 => hc ⟨hbc ▸ hlt, h3⟩
      omega
  · have hjlt : j < p.length := (List.getElem?_eq_some_iff.mp hj).1
    refine Or.inr ⟨j, hrow, hhdr, ?_, hbc, h3, hbm, ?_, ?_⟩
    · rw [List.getElem?_append_left hjlt]; exact hj
    · intro i row' hi hij
      rw [List.getElem?_append_left (lt_trans hij hjlt)] at hi
      exact hstrict i row' hi hij
    · intro i row' hi
      by_cases hip : i < p.length
      · rw [List.getElem?_append_left hip] at hi
        exact hmax i row' hi
      · have hlt : i < p.length + 1 := by
          have := (List.getElem?_eq_some_iff.mp hi).1
          simpa using this
        have hieq : i = p.length := by omega
        subst hieq
        rw [List.getElem?_concat_length] at hi
        injection hi with he
        subst he
        by_cases hle : rowCount cands row ≤ rowCount cands hrow
        · exact hle
        · push_neg at hle
          have hbclt : bc < (rowCount cands row : Int) := by
            rw [hbc]; exact_mod_cast hle
          have h3' : ¬ 3 ≤ rowCount cands row := fun hx => hc ⟨hbclt, hx⟩
          omega

/-- Scanning any further rows preserves the invariant. -/
theorem fhrAux_inv (cands : List (String × List String)) (rows : List (List Value)) :
    ∀ (p : List (List Value)) (bc : Int) (hdr : Option Nat) (bm : ColMap),
      fhrInv cands p bc hdr bm →
      ∃ bc', fhrInv cands (p ++ rows) bc'
        (fhrAux cands rows (p.length + 1) bc hdr bm).1
        (fhrAux cands rows (p.length + 1) bc hdr bm).2 := by
  induction rows with
  | nil => intro p bc hdr bm h; exact ⟨bc, by simpa [fhrAux] using h⟩
  | cons row rest ih =>
      intro p bc hdr bm h
      have e : fhrAux cands (row :: rest) (p.length + 1) bc hdr bm =
          if bc < ((rowMatch cands row).1 : Int) ∧ 3 ≤ (rowMatch cands row).1 then
            fhrAux cands rest (p.length + 1 + 1) ((rowMatch cands row).1 : Int)
              (some (p.length + 1)) (rowMatch cands row).2
          else fhrAux cands rest (p.length + 1 + 1) bc hdr bm := rfl
      rw [e]
      by_cases hc : bc < ((rowMatch cands row).1 : Int) ∧ 3 ≤ (rowMatch cands row).1
      · rw [if_pos hc]
        have h' := fhrInv_update cands p row bc hdr bm h hc
        have hrec := ih (p ++ [row]) ((rowMatch cands row).1 : Int)
          (some (p.length + 1)) (rowMatch cands row).2 h'
        simpa [List.append_assoc] using hrec
      · rw [if_neg hc]
        have h' := fhrInv_keep cands p row bc hdr bm h hc
        have hrec := ih (p ++ [row]) bc hdr bm h'
        simpa [List.append_assoc] using hrec

/-- C3: the header locator picks the topmost row of maximal match count
provided that maximum is at least 3 — a row only replaces the best when
its count strictly exceeds it and reaches 3, so later rows of equal
count never override, a 2-match row is never selected, and when no row
reaches 3 the result is no header row and an empty column map. -/
theorem find_header_row_topmost_threshold (g : Grid) (cands : List (String × List String)) :
    ((∀ row ∈ g, rowCount cands row < 3) → find_header_row g cands = (none, [])) ∧
    (∀ (j : Nat) (cm : ColMap), find_header_row g cands = (some j, cm) →
      1 ≤ j ∧ ∃ hrow : List Value, g[j - 1]? = some hrow ∧ 3 ≤ rowCount cands hrow ∧
        cm = (rowMatch cands hrow).2 ∧
        (∀ (i : Nat) (row : List Value),
          g[i]? = some row → i < j - 1 → rowCount cands row < rowCount cands hrow) ∧
        (∀ (i : Nat) (row : List Value),
          g[i]? = some row → rowCount cands row ≤ rowCount cands hrow)) := by
  have h0 : fhrInv cands [] (-1) none [] := Or.inl ⟨rfl, rfl, rfl, by simp⟩
  obtain ⟨bc', hinv⟩ := fhrAux_inv cands g [] (-1) none [] h0
  rw [List.nil_append] at hinv
  constructor
  · intro hall
    rcases hinv with ⟨hh, _, hbm, _⟩ | ⟨j, hrow, _, hj, _, h3, _, _, _⟩
    · have epair : find_header_row g cands =
        ((find_header_row g cands).1, (find_header_row g cands).2) := rfl
      rw [epair]
      have h1 : (find_header_row g cands).1 = none := hh
      have h2 : (find_header_row g cands).2 = [] := hbm
      rw [h1, h2]
    · have := hall hrow (List.getElem?_mem hj)
      omega
  · intro j cm heq
    rcases hinv with ⟨hh, _, _, _⟩ | ⟨j0, hrow, hhdr, hj, _, h3, hbm, hstrict, hmax⟩
    · have h1 : (find_header_row g cands).1 = none := hh
      rw [heq] at h1
      simp at h1
    · have h1 : (find_header_row g cands).1 = some (j0 + 1) := hhdr
      have h2 : (find_header_row g cands).2 = (rowMatch cands hrow).2 := hbm
      rw [heq] at h1 h2
      simp only [Option.some.injEq] at h1
      refine ⟨by omega, hrow, ?_, h3, h2, ?_, hmax⟩
      · have : j - 1 = j0 := by omega
        rw [this]
        exact hj
      · intro i row hi hij
        exact hstrict i row hi (by omega)

/-- C3 witness: a grid with a single blank row has no header (no row
reaches a match count of 3). -/
theorem find_header_row_topmost_threshold_witness :
    find_header_row [[]] header_candidates = (none, []) :=
  (find_header_row_topmost_threshold [[]] header_candidates).1 (by decide)
